import Mathlib

/-!
Verification of the Osmosis staking-withdraw Confirm step
(`src/features/defi/providers/osmosis/components/OsmosisManager/Staking/Withdraw/components/Confirm.tsx`).

The component's monetary arithmetic is written against BigNumber.js
(`bn` / `bnOrZero` from `lib/bignumber/bignumber`): arbitrary-precision
decimal numbers.  We embed those values as `BigDec`, a mantissa/exponent
pair denoting `m / 10 ^ e`.  All operations used by the component
(`times`, `minus`, `div` by a power of ten, `pow` of ten, `gte 0`,
`toString`, string parsing with the `bnOrZero` zero fallback) are
embedded below.  `div` by `10 ^ p` is embedded exactly (BigNumber rounds
quotients to 20 decimal places; for the divisors `10 ^ p` appearing in
this component that rounding is exact whenever the result has at most
20 decimal places, and the rational semantics below agrees with
BigNumber on all such values).  `toString` is embedded as the plain
decimal rendering; BigNumber's exponential notation for exponents
outside `[-7, 20]` is not modelled, nor is exponent (`1e5`) input
syntax, since no value handled by this component uses either form.
-/

/-- An arbitrary-precision decimal number, denoting `m / 10 ^ e`.
This is the embedding of a BigNumber.js value. -/
structure BigDec where
  m : Int
  e : Nat
deriving Repr, DecidableEq

/-- The rational number denoted by a `BigDec`. -/
def BigDec.toRat (x : BigDec) : ℚ := (x.m : ℚ) / 10 ^ x.e

/-- Embedding of BigNumber `.times` (exact multiplication). -/
def BigDec.mul (x y : BigDec) : BigDec := ⟨x.m * y.m, x.e + y.e⟩

/-- Embedding of BigNumber `.minus` (exact subtraction). -/
def BigDec.sub (x y : BigDec) : BigDec :=
  ⟨x.m * 10 ^ y.e - y.m * 10 ^ x.e, x.e + y.e⟩

/-- Embedding of BigNumber `.div(bn(10).pow(p))`: division by `10 ^ p`,
which is exact on decimals. -/
def BigDec.divPow10 (x : BigDec) (p : Nat) : BigDec := ⟨x.m, x.e + p⟩

/-- Embedding of BigNumber `.gte(0)`. -/
def BigDec.gte0 (x : BigDec) : Bool := decide (0 ≤ x.m)

/-- Embedding of `bn(10).pow(p)` for a natural exponent `p`. -/
def bnPow10 (p : Nat) : BigDec := ⟨(10 : Int) ^ p, 0⟩

/-- Is `c` one of the characters `0`-`9`? -/
def isDigitChar (c : Char) : Bool := 48 ≤ c.toNat && c.toNat ≤ 57

/-- Numeric value of a digit character. -/
def charToDigit (c : Char) : Nat := c.toNat - 48

/-- Numeric value of a big-endian string of digit characters. -/
def digitsToNat (cs : List Char) : Nat :=
  cs.foldl (fun a c => a * 10 + charToDigit c) 0

/-- Strip an optional leading sign, returning whether the number is
negated and the remaining characters. -/
def parseSign (cs : List Char) : Bool × List Char :=
  match cs with
  | [] => (false, [])
  | c :: r => if c = '-' then (true, r) else if c = '+' then (false, r) else (false, c :: r)

/-- The mantissa sign factor for a parsed negation flag. -/
def signOf (neg : Bool) : Int := if neg then -1 else 1

/-- Embedding of BigNumber decimal-string parsing (sign, integer part,
optional fraction).  Returns `none` where BigNumber would produce `NaN`. -/
def parseBigDec (s : String) : Option BigDec :=
  let sp := parseSign s.toList
  let sign := signOf sp.1
  let intPart := sp.2.takeWhile isDigitChar
  let rest := sp.2.dropWhile isDigitChar
  match rest with
  | [] =>
    if intPart.isEmpty then none
    else some ⟨sign * (digitsToNat intPart : Int), 0⟩
  | '.' :: frac =>
    if frac.all isDigitChar && !(intPart.isEmpty && frac.isEmpty) then
      some ⟨sign * ((digitsToNat intPart * 10 ^ frac.length + digitsToNat frac : Nat) : Int),
            frac.length⟩
    else none
  | _ => none

/-- The digit character for a digit value. -/
def natDigitChar (d : Nat) : Char := Char.ofNat (48 + d)

/-- Little-endian digits of a natural number, with explicit fuel so that
the definition is structurally recursive. -/
def natToRevDigitsAux : Nat → Nat → List Nat
  | 0, _ => []
  | _ + 1, 0 => []
  | fuel + 1, n + 1 => ((n + 1) % 10) :: natToRevDigitsAux fuel ((n + 1) / 10)

/-- Little-endian digits of a natural number (`[]` for `0`). -/
def natToRevDigits (n : Nat) : List Nat := natToRevDigitsAux n n

/-- Numeric value of a little-endian digit list. -/
def revDigitsVal : List Nat → Nat
  | [] => 0
  | d :: ds => d + 10 * revDigitsVal ds

/-- Big-endian digit characters of a natural number (`"0"` for `0`). -/
def natDigitsBE (n : Nat) : List Char :=
  if n = 0 then ['0'] else (natToRevDigits n).reverse.map natDigitChar

/-- Leading sign characters of an integer. -/
def intSignChars (m : Int) : List Char := if m < 0 then ['-'] else []

/-- Remove trailing decimal zeros: BigNumber stores and prints values in
normalized form, without trailing zeros in the fraction. -/
def stripZerosAux : Int → Nat → Int × Nat
  | m, 0 => (m, 0)
  | m, e + 1 => if m % 10 = 0 then stripZerosAux (m / 10) e else (m, e + 1)

/-- Plain decimal rendering of a (possibly unnormalized) mantissa and
exponent: sign, integer digits, and a fraction when `e > 0`. -/
def renderChars (m : Int) (e : Nat) : List Char :=
  let ds := natDigitsBE m.natAbs
  if e = 0 then intSignChars m ++ ds
  else
    let padded := List.replicate (e + 1 - ds.length) '0' ++ ds
    intSignChars m ++ padded.take (padded.length - e) ++ '.' :: padded.drop (padded.length - e)

/-- Embedding of BigNumber `.toString()`: normalize away trailing
fraction zeros, then render in plain decimal notation. -/
def BigDec.render (x : BigDec) : String :=
  let p := stripZerosAux x.m x.e
  String.mk (renderChars p.1 p.2)

/-- Embedding of `bnOrZero` from `lib/bignumber/bignumber`: parse a
string, falling back to zero when the result would be `NaN`. -/
def bnOrZero (s : String) : BigDec := (parseBigDec s).getD ⟨0, 0⟩

/-- `bnOrZero` applied to a possibly-absent (JS `undefined`) string. -/
def bnOrZeroOpt (s : Option String) : BigDec :=
  match s with
  | none => ⟨0, 0⟩
  | some s => bnOrZero s

/-- Rational value of a string under `bnOrZero` semantics. -/
def ratOrZero (s : String) : ℚ := (bnOrZero s).toRat

/-- Rational value of a possibly-absent string under `bnOrZero` semantics. -/
def ratOrZeroOpt (s : Option String) : ℚ := (bnOrZeroOpt s).toRat


/-!
Data model of the Confirm step.

The asset descriptor, BIP44 derivation params, the `StakingAction` and
`DefiStep` enums, and the withdraw-context state and reducer live in
modules of this repository outside `src/` (`state/slices`,
`chain-adapters`, `plugins/cosmos/.../StakingCommon`,
`DefiManagerProvider/DefiCommon`, `../StakingWithdrawCommon`).  They are
modelled from the spec where noted; only the fields and variants this
component reads or dispatches are included.
-/

/-- Modelled from the spec (§3 asset descriptor; the `Asset` type of the
external asset-lookup collaborator): identifier, display symbol, name,
decimal precision, icon reference. -/
structure Asset where
  assetId : String
  symbol : String
  name : String
  precision : Nat
  icon : String
deriving Repr, DecidableEq

/-- Modelled from the spec (§6 account derivation parameters): the BIP44
derivation params resolved for the account. -/
structure BIP44Params where
  purpose : Nat
  coinType : Nat
  accountNumber : Nat
deriving Repr, DecidableEq

/-- Modelled from the spec (§4.4; `StakingAction` from
`plugins/cosmos/.../StakingCommon`): the staking action submitted with a
request.  This component always submits `unstake`. -/
inductive StakingAction
  | claim
  | stake
  | unstake
deriving Repr, DecidableEq

/-- Modelled from the spec (§6 workflow navigation; `DefiStep` from
`DefiManagerProvider/DefiCommon`): the workflow steps this component
navigates to (`Info` on cancel, `Status` after a submit). -/
inductive DefiStep
  | info
  | confirm
  | status
deriving Repr, DecidableEq

/-- Transaction status recorded in the workflow state
(`'success' | 'failed'`, or unset as `Option`). -/
inductive TxStatus
  | success
  | failed
deriving Repr, DecidableEq

/-- The `withdraw` record of the workflow state (§3): the fields this
component reads. -/
structure WithdrawValues where
  cryptoAmount : String
  estimatedGasCrypto : String
deriving Repr, DecidableEq

/-- Modelled from the spec (§3 workflow state; the
`StakingWithdrawContext` state from `../StakingWithdrawCommon`): the
shared, externally observable workflow state. -/
structure WithdrawState where
  loading : Bool
  withdraw : WithdrawValues
  txStatus : Option TxStatus
  txId : Option String
  accountId : Option String
deriving Repr, DecidableEq

/-- Modelled from the spec (§4.5; `OsmosisStakingWithdrawActionType`
from `../StakingWithdrawCommon`): the reducer actions this component
dispatches.  `SET_WITHDRAW` is dispatched here only with a `txStatus`
payload. -/
inductive WithdrawAction
  | setLoading (loading : Bool)
  | setWithdrawTxStatus (txStatus : TxStatus)
  | setTxId (txId : String)
deriving Repr, DecidableEq

/-- Modelled from the spec (§3, §4.5): the workflow-state reducer behind
`dispatch` — each action overwrites the corresponding field. -/
def applyAction (st : WithdrawState) : WithdrawAction → WithdrawState
  | .setLoading b => { st with loading := b }
  | .setWithdrawTxStatus s => { st with txStatus := some s }
  | .setTxId i => { st with txId := some i }

/-- The chain-specific unstake request assembled by `handleConfirm` and
passed to `handleStakingAction` (§4.3): validator, gas limit, fee and
value as strings, and the staking action. -/
structure StakingWithdrawRequest where
  asset : Asset
  bip44Params : BIP44Params
  validator : String
  gas : String
  fee : String
  value : String
  action : StakingAction
deriving Repr, DecidableEq

/-- Conversion of a human-readable decimal amount to base units, as
written in `handleConfirm` (Confirm.tsx lines 124-126):
`bnOrZero(amount).times(bn(10).pow(precision)).toString()`. -/
def toBaseUnits (amount : String) (precision : Nat) : String :=
  ((bnOrZero amount).mul (bnPow10 precision)).render

/-- The request built by `handleConfirm` (Confirm.tsx lines 118-128):
gas is passed through, fee is `gasPrice` scaled by the withdrawn asset's
precision, value is the crypto amount scaled by the same precision. -/
def buildWithdrawRequest (asset : Asset) (bip44Params : BIP44Params) (validator : String)
    (gasLimit gasPrice cryptoAmount : String) : StakingWithdrawRequest :=
  { asset := asset
    bip44Params := bip44Params
    validator := validator
    gas := gasLimit
    fee := toBaseUnits gasPrice asset.precision
    value := toBaseUnits cryptoAmount asset.precision
    action := .unstake }

/-- The inputs captured by `handleConfirm` when it is invoked: the
context state, presence of `dispatch`, the resolved BIP44 params, the
fee-estimate strings, presence of the connected wallet, the asset, and
the validator contract address from the query. -/
structure ConfirmInput where
  state : WithdrawState
  hasDispatch : Bool
  bip44Params : Option BIP44Params
  gasLimit : Option String
  gasPrice : Option String
  wallet : Bool
  asset : Asset
  contractAddress : String
deriving Repr, DecidableEq

/-- JS truthiness of a possibly-absent string: `undefined`, `null` and
`""` are falsy. -/
def optStrTruthy (s : Option String) : Bool :=
  match s with
  | none => false
  | some s => !s.isEmpty

/-- The guard at the top of `handleConfirm` (Confirm.tsx lines 109-113):
`state?.loading || !(bip44Params && dispatch && gasLimit && gasPrice &&
state?.accountId && walletState?.wallet)` — the invocation proceeds only
when this condition is false. -/
def guardPasses (inp : ConfirmInput) : Bool :=
  !inp.state.loading &&
    (inp.bip44Params.isSome && inp.hasDispatch && optStrTruthy inp.gasLimit &&
      optStrTruthy inp.gasPrice && optStrTruthy inp.state.accountId && inp.wallet)

/-- An observable event of one `handleConfirm` invocation: a reducer
dispatch, the call to `handleStakingAction`, a `moduleLogger.error`
call, or an `onNext` navigation. -/
inductive Event
  | dispatched (action : WithdrawAction)
  | broadcastCall (request : StakingWithdrawRequest)
  | errorLogged
  | advance (step : DefiStep)
deriving Repr, DecidableEq

/-- The event trace of one `handleConfirm` invocation (Confirm.tsx lines
108-147), given the outcome `broadcast` of the awaited
`handleStakingAction` call: `.error` when it throws, `.ok` with the
(possibly absent or empty) transaction id when it returns.  The guard
aborts silently; otherwise loading is set, the request is built and
submitted, the tx status is recorded from the returned id (an absent or
empty id also raises, so it is logged like a thrown error), and the
`finally` block clears loading and advances to the status step. -/
def handleConfirmTrace (inp : ConfirmInput) (broadcast : Except Unit (Option String)) :
    List Event :=
  if guardPasses inp then
    match inp.bip44Params, inp.gasLimit, inp.gasPrice with
    | some bp, some gl, some gp =>
      let req := buildWithdrawRequest inp.asset bp inp.contractAddress gl gp
        inp.state.withdraw.cryptoAmount
      let pre := [Event.dispatched (.setLoading true), Event.broadcastCall req]
      let post := [Event.dispatched (.setLoading false), Event.advance .status]
      match broadcast with
      | .error _ => pre ++ Event.errorLogged :: post
      | .ok none =>
        pre ++ Event.dispatched (.setWithdrawTxStatus .failed) :: Event.errorLogged :: post
      | .ok (some tx) =>
        if tx.isEmpty then
          pre ++ Event.dispatched (.setWithdrawTxStatus .failed) :: Event.errorLogged :: post
        else
          pre ++ Event.dispatched (.setWithdrawTxStatus .success) ::
            Event.dispatched (.setTxId tx) :: post
    | _, _, _ => []
  else []

/-- Effect of one event on the workflow state: dispatches run the
reducer, everything else leaves the state unchanged. -/
def stepEvent (st : WithdrawState) (e : Event) : WithdrawState :=
  match e with
  | .dispatched a => applyAction st a
  | _ => st

/-- Run a trace of events against the workflow state. -/
def runEvents (st : WithdrawState) (es : List Event) : WithdrawState :=
  es.foldl stepEvent st

/-- The workflow state after one `handleConfirm` invocation. -/
def handleConfirm (inp : ConfirmInput) (broadcast : Except Unit (Option String)) :
    WithdrawState :=
  runEvents inp.state (handleConfirmTrace inp broadcast)

/-- The `onNext` navigation targets of a trace. -/
def advanceTargets (es : List Event) : List DefiStep :=
  es.filterMap fun e =>
    match e with
    | .advance s => some s
    | _ => none

/-- The requests submitted to `handleStakingAction` in a trace. -/
def broadcastRequests (es : List Event) : List StakingWithdrawRequest :=
  es.filterMap fun e =>
    match e with
    | .broadcastCall r => some r
    | _ => none

/-- Number of `moduleLogger.error` calls in a trace. -/
def errorLogCount (es : List Event) : Nat :=
  (es.filter fun e =>
    match e with
    | .errorLogged => true
    | _ => false).length

/-- Does the event record the `txStatus` assignment? -/
def isTxStatusEvent (e : Event) : Bool :=
  match e with
  | .dispatched (.setWithdrawTxStatus _) => true
  | _ => false

/-- Does the event set `loading` back to `false`? -/
def isSetLoadingFalseEvent (e : Event) : Bool :=
  match e with
  | .dispatched (.setLoading false) => true
  | _ => false

/-- The balance check (Confirm.tsx lines 165-167):
`bnOrZero(feeAssetBalance).minus(bnOrZero(estimatedGasCrypto)
.div(bn(10).pow(feeAsset.precision))).gte(0)`. -/
def hasEnoughBalanceForGas (feeAssetBalance estimatedGasCrypto : Option String)
    (feeAssetPrecision : Nat) : Bool :=
  ((bnOrZeroOpt feeAssetBalance).sub
    ((bnOrZeroOpt estimatedGasCrypto).divPow10 feeAssetPrecision)).gte0

/-- Modelled from the spec (§6 asset resolution; `toAssetId` from
`@shapeshiftoss/caip`): deterministic construction of an asset
identifier from a chain id, asset namespace and asset reference. -/
def toAssetId (chainId assetNamespace assetReference : String) : String :=
  chainId ++ "/" ++ assetNamespace ++ ":" ++ assetReference

/-- The `(chainId, assetNamespace, assetReference)` triple taken from
the browser-router query (Confirm.tsx line 53). -/
structure DefiQuery where
  chainId : String
  assetNamespace : String
  assetReference : String
deriving Repr, DecidableEq

/-- `underlyingAssetId` as constructed at Confirm.tsx lines 57-61. -/
def underlyingAssetId (q : DefiQuery) : String :=
  toAssetId q.chainId q.assetNamespace q.assetReference

/-- `assetId` as constructed at Confirm.tsx lines 63-67. -/
def confirmAssetId (q : DefiQuery) : String :=
  toAssetId q.chainId q.assetNamespace q.assetReference

/-- `feeAssetId` as constructed at Confirm.tsx lines 72-76. -/
def feeAssetId (q : DefiQuery) : String :=
  toAssetId q.chainId q.assetNamespace q.assetReference

/-- A concrete asset used to instantiate the theorems below. -/
def sampleAsset : Asset :=
  { assetId := "cosmos:osmosis-1/slip44:118"
    symbol := "OSMO"
    name := "Osmosis"
    precision := 6
    icon := "osmo.png" }

/-- A concrete workflow state as created by the ancestor step. -/
def sampleState : WithdrawState :=
  { loading := false
    withdraw := { cryptoAmount := "10", estimatedGasCrypto := "2000000" }
    txStatus := none
    txId := none
    accountId := some "cosmos:osmosis-1:osmo1qa" }

/-- A concrete guard-passing `handleConfirm` input. -/
def sampleInput : ConfirmInput :=
  { state := sampleState
    hasDispatch := true
    bip44Params := some ⟨44, 118, 0⟩
    gasLimit := some "200000"
    gasPrice := some "0.5"
    wallet := true
    asset := sampleAsset
    contractAddress := "osmovaloper1xyz" }


/-- Index of the first event satisfying a predicate in a trace. -/
def firstIdx (p : Event → Bool) : List Event → Option Nat
  | [] => none
  | e :: es => if p e then some 0 else (firstIdx p es).map (· + 1)

/-- A concrete `handleConfirm` input rejected by the guard because a
submit is already in flight. -/
def sampleLoadingInput : ConfirmInput :=
  { sampleInput with state := { sampleState with loading := true } }

/-!
Arithmetic lemmas about the `BigDec` embedding.
-/

theorem BigDec.toRat_mul (x y : BigDec) : (x.mul y).toRat = x.toRat * y.toRat := by
  unfold BigDec.mul BigDec.toRat
  push_cast
  rw [pow_add, div_mul_div_comm]

theorem BigDec.toRat_sub (x y : BigDec) : (x.sub y).toRat = x.toRat - y.toRat := by
  unfold BigDec.sub BigDec.toRat
  have hx : ((10 : ℚ) ^ x.e) ≠ 0 := by positivity
  have hy : ((10 : ℚ) ^ y.e) ≠ 0 := by positivity
  push_cast
  rw [pow_add]
  field_simp
  ring

theorem BigDec.toRat_divPow10 (x : BigDec) (p : Nat) :
    (x.divPow10 p).toRat = x.toRat / 10 ^ p := by
  unfold BigDec.divPow10 BigDec.toRat
  rw [div_div, ← pow_add]

theorem BigDec.gte0_iff (x : BigDec) : x.gte0 = true ↔ 0 ≤ x.toRat := by
  unfold BigDec.gte0 BigDec.toRat
  rw [decide_eq_true_iff, le_div_iff₀ (by positivity)]
  simp

theorem bnPow10_toRat (p : Nat) : (bnPow10 p).toRat = 10 ^ p := by
  unfold bnPow10 BigDec.toRat
  push_cast
  simp

/-!
Correctness of the digit printer against the digit parser.
-/

theorem revDigitsVal_natToRevDigitsAux (fuel : Nat) :
    ∀ n : Nat, n ≤ fuel → revDigitsVal (natToRevDigitsAux fuel n) = n := by
  induction fuel with
  | zero =>
    intro n h
    interval_cases n
    simp [natToRevDigitsAux, revDigitsVal]
  | succ f ih =>
    intro n h
    match n with
    | 0 => simp [natToRevDigitsAux, revDigitsVal]
    | k + 1 =>
      have hk : (k + 1) / 10 ≤ f := by omega
      simp only [natToRevDigitsAux, revDigitsVal, ih _ hk]
      omega

theorem natToRevDigitsAux_lt_10 (fuel : Nat) :
    ∀ n : Nat, ∀ d ∈ natToRevDigitsAux fuel n, d < 10 := by
  induction fuel with
  | zero => intro n d hd; simp [natToRevDigitsAux] at hd
  | succ f ih =>
    intro n d hd
    match n with
    | 0 => simp [natToRevDigitsAux] at hd
    | k + 1 =>
      simp only [natToRevDigitsAux, List.mem_cons] at hd
      rcases hd with h | h
      · omega
      · exact ih _ _ h

theorem charToDigit_natDigitChar (d : Nat) (h : d < 10) :
    charToDigit (natDigitChar d) = d ∧ isDigitChar (natDigitChar d) = true := by
  unfold natDigitChar
  interval_cases d <;> exact ⟨by decide, by decide⟩

theorem isDigitChar_ne_sign (c : Char) (h : isDigitChar c = true) : c ≠ '-' ∧ c ≠ '+' := by
  constructor <;> rintro rfl <;> simp [isDigitChar] at h

theorem foldl_digits_reverse (ds : List Nat) :
    ∀ a : Nat, List.foldl (fun a d => a * 10 + d) a ds.reverse =
      a * 10 ^ ds.length + revDigitsVal ds := by
  induction ds with
  | nil => intro a; simp [revDigitsVal]
  | cons d t ih =>
    intro a
    simp only [List.reverse_cons, List.foldl_append, ih a, List.foldl_cons, List.foldl_nil,
      List.length_cons, revDigitsVal]
    ring

theorem foldl_map_natDigitChar (ds : List Nat) :
    ∀ a : Nat, (∀ d ∈ ds, d < 10) →
      List.foldl (fun a c => a * 10 + charToDigit c) a (ds.map natDigitChar) =
        List.foldl (fun a d => a * 10 + d) a ds := by
  induction ds with
  | nil => intro a _; simp
  | cons d t ih =>
    intro a h
    have hd : d < 10 := h d (List.mem_cons_self d t)
    simp only [List.map_cons, List.foldl_cons, (charToDigit_natDigitChar d hd).1]
    exact ih _ (fun x hx => h x (List.mem_cons_of_mem d hx))

theorem digitsToNat_natDigitsBE (n : Nat) : digitsToNat (natDigitsBE n) = n := by
  unfold natDigitsBE natToRevDigits
  by_cases h : n = 0
  · subst h; decide
  · simp only [h, if_false]
    unfold digitsToNat
    rw [foldl_map_natDigitChar _ _ (fun d hd => natToRevDigitsAux_lt_10 n n d
      (List.mem_reverse.mp hd)), foldl_digits_reverse]
    simp [revDigitsVal_natToRevDigitsAux n n (Nat.le_refl n)]

theorem natDigitsBE_ne_nil (n : Nat) : natDigitsBE n ≠ [] := by
  unfold natDigitsBE
  by_cases h : n = 0
  · simp [h]
  · simp only [h, if_false]
    match n, h with
    | k + 1, _ =>
      simp [natToRevDigits, natToRevDigitsAux]

theorem natDigitsBE_all_digits (n : Nat) : ∀ c ∈ natDigitsBE n, isDigitChar c = true := by
  unfold natDigitsBE
  by_cases h : n = 0
  · simp only [h, if_true]
    intro c hc
    simp only [List.mem_singleton] at hc
    subst hc; decide
  · simp only [h, if_false]
    intro c hc
    simp only [List.mem_map] at hc
    obtain ⟨d, hd, rfl⟩ := hc
    exact (charToDigit_natDigitChar d
      (natToRevDigitsAux_lt_10 n n d (List.mem_reverse.mp hd))).2

theorem foldl_digitsToNat_init (cs : List Char) :
    ∀ a : Nat, List.foldl (fun a c => a * 10 + charToDigit c) a cs =
      a * 10 ^ cs.length + List.foldl (fun a c => a * 10 + charToDigit c) 0 cs := by
  induction cs with
  | nil => intro a; simp
  | cons c t ih =>
    intro a
    simp only [List.foldl_cons, List.length_cons]
    rw [ih (a * 10 + charToDigit c), ih (0 * 10 + charToDigit c)]
    ring

theorem digitsToNat_append (l1 l2 : List Char) :
    digitsToNat (l1 ++ l2) = digitsToNat l1 * 10 ^ l2.length + digitsToNat l2 := by
  unfold digitsToNat
  rw [List.foldl_append]
  exact foldl_digitsToNat_init l2 _

theorem digitsToNat_replicate_zero (k : Nat) : digitsToNat (List.replicate k '0') = 0 := by
  induction k with
  | zero => rfl
  | succ j ih =>
    show digitsToNat ('0' :: List.replicate j '0') = 0
    unfold digitsToNat at ih ⊢
    simpa using ih

theorem takeWhile_all (p : Char → Bool) (l : List Char) (h : ∀ c ∈ l, p c = true) :
    l.takeWhile p = l ∧ l.dropWhile p = [] := by
  induction l with
  | nil => simp
  | cons c t ih =>
    have hc : p c = true := h c (List.mem_cons_self c t)
    have ht := ih fun x hx => h x (List.mem_cons_of_mem c hx)
    simp [List.takeWhile_cons, List.dropWhile_cons, hc, ht.1, ht.2]

theorem takeWhile_digits_append (l r : List Char) (h : ∀ c ∈ l, isDigitChar c = true) :
    (l ++ r).takeWhile isDigitChar = l ++ r.takeWhile isDigitChar ∧
      (l ++ r).dropWhile isDigitChar = r.dropWhile isDigitChar := by
  induction l with
  | nil => simp
  | cons c t ih =>
    have hc : isDigitChar c = true := h c (List.mem_cons_self c t)
    have ht := ih fun x hx => h x (List.mem_cons_of_mem c hx)
    simp [List.takeWhile_cons, List.dropWhile_cons, hc, ht.1, ht.2]

theorem stripZerosAux_toRat (e : Nat) :
    ∀ m : Int, BigDec.toRat ⟨(stripZerosAux m e).1, (stripZerosAux m e).2⟩ =
      BigDec.toRat ⟨m, e⟩ := by
  induction e with
  | zero => intro m; rfl
  | succ f ih =>
    intro m
    unfold stripZerosAux
    by_cases h : m % 10 = 0
    · simp only [h, if_true]
      rw [ih (m / 10)]
      unfold BigDec.toRat
      have hm : m = 10 * (m / 10) := by omega
      rw [hm]
      have h10 : ((10 : ℚ) ^ f) ≠ 0 := by positivity
      push_cast
      rw [pow_succ]
      field_simp
      ring
    · simp [h]


/-!
Round-trip: printing any `BigDec` and parsing the result back yields the
same rational value.
-/

theorem toList_mk (l : List Char) : (String.mk l).toList = l := rfl

theorem parseSign_sign (m : Int) (c : Char) (r : List Char) (h : isDigitChar c = true) :
    parseSign (intSignChars m ++ c :: r) = (decide (m < 0), c :: r) := by
  obtain ⟨h1, h2⟩ := isDigitChar_ne_sign c h
  unfold intSignChars parseSign
  by_cases hm : m < 0 <;> simp [hm, h1, h2]

theorem signOf_true : signOf true = -1 := rfl

theorem signOf_false : signOf false = 1 := rfl

theorem signed_natAbs (m : Int) : signOf (decide (m < 0)) * m.natAbs = m := by
  by_cases h : m < 0
  · rw [decide_eq_true h, signOf_true, Int.ofNat_natAbs_of_nonpos (le_of_lt h)]
    ring
  · rw [decide_eq_false h, signOf_false, Int.natAbs_of_nonneg (not_lt.mp h)]
    ring

theorem parse_int_chars (m : Int) (ds : List Char) (hne : ds ≠ [])
    (hall : ∀ c ∈ ds, isDigitChar c = true) (hval : digitsToNat ds = m.natAbs) :
    (parseBigDec (String.mk (intSignChars m ++ ds))).map BigDec.toRat =
      some (BigDec.toRat ⟨m, 0⟩) := by
  obtain ⟨c, t, rfl⟩ := List.exists_cons_of_ne_nil hne
  have hc : isDigitChar c = true := hall c (List.mem_cons_self c t)
  have htake := takeWhile_all isDigitChar (c :: t) hall
  unfold parseBigDec
  simp only [toList_mk, parseSign_sign m c t hc, htake.1, htake.2]
  simp only [List.isEmpty_cons, Bool.false_eq_true, if_false, Option.map_some', hval,
    signed_natAbs]

theorem parse_frac_chars (m : Int) (ip fp : List Char) (hne : ip ≠ [])
    (hipall : ∀ c ∈ ip, isDigitChar c = true) (hfpall : ∀ c ∈ fp, isDigitChar c = true)
    (hval : digitsToNat ip * 10 ^ fp.length + digitsToNat fp = m.natAbs) :
    (parseBigDec (String.mk (intSignChars m ++ (ip ++ '.' :: fp)))).map BigDec.toRat =
      some (BigDec.toRat ⟨m, fp.length⟩) := by
  obtain ⟨c, t, rfl⟩ := List.exists_cons_of_ne_nil hne
  have hc : isDigitChar c = true := hipall c (List.mem_cons_self c t)
  have hdotd : isDigitChar '.' = false := by decide
  have htake := takeWhile_digits_append (c :: t) ('.' :: fp) hipall
  have hsign := parseSign_sign m c (t ++ '.' :: fp) hc
  have hfpd : fp.all isDigitChar = true := List.all_eq_true.mpr hfpall
  unfold parseBigDec
  simp only [toList_mk, List.cons_append] at hsign htake ⊢
  simp only [hsign, htake.1, htake.2]
  simp only [List.takeWhile_cons, List.dropWhile_cons, hdotd, Bool.false_eq_true, if_false,
    List.append_nil, List.isEmpty_cons, Bool.false_and, Bool.not_false, Bool.and_true, hfpd,
    if_true, Option.map_some', hval, signed_natAbs]

theorem parse_renderChars (m : Int) (e : Nat) :
    (parseBigDec (String.mk (renderChars m e))).map BigDec.toRat =
      some (BigDec.toRat ⟨m, e⟩) := by
  by_cases h : e = 0
  · subst h
    have := parse_int_chars m (natDigitsBE m.natAbs) (natDigitsBE_ne_nil _)
      (natDigitsBE_all_digits _) (digitsToNat_natDigitsBE _)
    simpa [renderChars] using this
  · have hplen : e + 1 ≤ (List.replicate (e + 1 - (natDigitsBE m.natAbs).length) '0' ++
        natDigitsBE m.natAbs).length := by
      rw [List.length_append, List.length_replicate]
      omega
    set padded := List.replicate (e + 1 - (natDigitsBE m.natAbs).length) '0' ++
      natDigitsBE m.natAbs with hpadded
    have hpall : ∀ c ∈ padded, isDigitChar c = true := by
      intro c hmem
      rcases List.mem_append.mp hmem with hr | hr
      · rw [List.eq_of_mem_replicate hr]; decide
      · exact natDigitsBE_all_digits m.natAbs c hr
    have hipall : ∀ c ∈ padded.take (padded.length - e), isDigitChar c = true := fun c hmem =>
      hpall c (List.take_subset _ _ hmem)
    have hfpall : ∀ c ∈ padded.drop (padded.length - e), isDigitChar c = true := fun c hmem =>
      hpall c (List.drop_subset _ _ hmem)
    have hiplen : 0 < (padded.take (padded.length - e)).length := by
      rw [List.length_take]
      omega
    have hfplen : (padded.drop (padded.length - e)).length = e := by
      rw [List.length_drop]
      omega
    have hval : digitsToNat (padded.take (padded.length - e)) *
        10 ^ (padded.drop (padded.length - e)).length +
        digitsToNat (padded.drop (padded.length - e)) = m.natAbs := by
      rw [← digitsToNat_append, List.take_append_drop, hpadded, digitsToNat_append,
        digitsToNat_replicate_zero, digitsToNat_natDigitsBE]
      ring
    have hmain := parse_frac_chars m (padded.take (padded.length - e))
      (padded.drop (padded.length - e)) (List.length_pos.mp hiplen) hipall hfpall hval
    rw [hfplen] at hmain
    unfold renderChars
    simp only [h, if_false, ← hpadded, List.append_assoc]
    exact hmain

theorem parse_render (x : BigDec) :
    (parseBigDec x.render).map BigDec.toRat = some x.toRat := by
  unfold BigDec.render
  rw [parse_renderChars, stripZerosAux_toRat]

/-!
Derived semantics of the component's arithmetic.
-/

theorem toBaseUnits_parse (amount : String) (precision : Nat) :
    (parseBigDec (toBaseUnits amount precision)).map BigDec.toRat =
      some (ratOrZero amount * 10 ^ precision) := by
  unfold toBaseUnits
  rw [parse_render, BigDec.toRat_mul, bnPow10_toRat]
  rfl

theorem ratOrZero_toBaseUnits (amount : String) (precision : Nat) :
    ratOrZero (toBaseUnits amount precision) = ratOrZero amount * 10 ^ precision := by
  have h := toBaseUnits_parse amount precision
  unfold ratOrZero bnOrZero
  cases hp : parseBigDec (toBaseUnits amount precision) with
  | none => rw [hp] at h; simp at h
  | some y =>
    rw [hp] at h
    simp only [Option.map_some', Option.some_inj] at h
    simpa using h

theorem hasEnoughBalanceForGas_iff (feeAssetBalance estimatedGasCrypto : Option String)
    (feeAssetPrecision : Nat) :
    hasEnoughBalanceForGas feeAssetBalance estimatedGasCrypto feeAssetPrecision = true ↔
      0 ≤ ratOrZeroOpt feeAssetBalance -
        ratOrZeroOpt estimatedGasCrypto / 10 ^ feeAssetPrecision := by
  unfold hasEnoughBalanceForGas
  rw [BigDec.gte0_iff, BigDec.toRat_sub, BigDec.toRat_divPow10]
  rfl

/-!
The event traces of `handleConfirm`, by broadcast outcome.
-/

theorem optStrTruthy_some (o : Option String) (h : optStrTruthy o = true) : ∃ s, o = some s := by
  cases o with
  | none => simp [optStrTruthy] at h
  | some s => exact ⟨s, rfl⟩

theorem guardPasses_parts (inp : ConfirmInput) (h : guardPasses inp = true) :
    inp.state.loading = false ∧
      ∃ bp gl gp, inp.bip44Params = some bp ∧ inp.gasLimit = some gl ∧
        inp.gasPrice = some gp := by
  unfold guardPasses at h
  simp only [Bool.and_eq_true, Bool.not_eq_true'] at h
  obtain ⟨hld, ⟨⟨⟨⟨⟨hbp, -⟩, hgl⟩, hgp⟩, -⟩, -⟩⟩ := h
  obtain ⟨bp, hbp⟩ := Option.isSome_iff_exists.mp hbp
  obtain ⟨gl, hgl⟩ := optStrTruthy_some _ hgl
  obtain ⟨gp, hgp⟩ := optStrTruthy_some _ hgp
  exact ⟨hld, bp, gl, gp, hbp, hgl, hgp⟩

theorem handleConfirmTrace_guard (inp : ConfirmInput) (b : Except Unit (Option String))
    (h : guardPasses inp = true) :
    ∃ bp gl gp, inp.bip44Params = some bp ∧ inp.gasLimit = some gl ∧
      inp.gasPrice = some gp ∧
      handleConfirmTrace inp b =
        Event.dispatched (.setLoading true) ::
        Event.broadcastCall (buildWithdrawRequest inp.asset bp inp.contractAddress gl gp
          inp.state.withdraw.cryptoAmount) ::
        (match b with
          | .error _ =>
            [Event.errorLogged, Event.dispatched (.setLoading false), Event.advance .status]
          | .ok none =>
            [Event.dispatched (.setWithdrawTxStatus .failed), Event.errorLogged,
              Event.dispatched (.setLoading false), Event.advance .status]
          | .ok (some tx) =>
            if tx.isEmpty then
              [Event.dispatched (.setWithdrawTxStatus .failed), Event.errorLogged,
                Event.dispatched (.setLoading false), Event.advance .status]
            else
              [Event.dispatched (.setWithdrawTxStatus .success),
                Event.dispatched (.setTxId tx), Event.dispatched (.setLoading false),
                Event.advance .status]) := by
  obtain ⟨-, bp, gl, gp, hbp, hgl, hgp⟩ := guardPasses_parts inp h
  refine ⟨bp, gl, gp, hbp, hgl, hgp, ?_⟩
  unfold handleConfirmTrace
  simp only [h, if_true, hbp, hgl, hgp]
  cases b with
  | error u => simp
  | ok tx =>
    cases tx with
    | none => simp
    | some s =>
      by_cases hs : s.isEmpty <;> simp [hs]

theorem handleConfirmTrace_fail (inp : ConfirmInput) (b : Except Unit (Option String))
    (h : guardPasses inp = false) : handleConfirmTrace inp b = [] := by
  unfold handleConfirmTrace
  simp [h]

theorem guardFails_of (inp : ConfirmInput)
    (h : inp.state.loading = true ∨ inp.gasLimit = none ∨ inp.gasPrice = none ∨
      inp.bip44Params = none ∨ inp.state.accountId = none ∨ inp.wallet = false) :
    guardPasses inp = false := by
  unfold guardPasses
  rcases h with h | h | h | h | h | h <;> simp [h, optStrTruthy]

theorem handleConfirm_error (inp : ConfirmInput) (u : Unit) (h : guardPasses inp = true) :
    handleConfirm inp (.error u) = { inp.state with loading := false } := by
  obtain ⟨bp, gl, gp, hbp, hgl, hgp, htr⟩ := handleConfirmTrace_guard inp (.error u) h
  unfold handleConfirm
  rw [htr]
  rfl

theorem handleConfirm_ok_none (inp : ConfirmInput) (h : guardPasses inp = true) :
    handleConfirm inp (.ok none) =
      { inp.state with loading := false, txStatus := some .failed } := by
  obtain ⟨bp, gl, gp, hbp, hgl, hgp, htr⟩ := handleConfirmTrace_guard inp (.ok none) h
  unfold handleConfirm
  rw [htr]
  rfl

theorem handleConfirm_ok_empty (inp : ConfirmInput) (tx : String) (h : guardPasses inp = true)
    (he : tx.isEmpty = true) :
    handleConfirm inp (.ok (some tx)) =
      { inp.state with loading := false, txStatus := some .failed } := by
  obtain ⟨bp, gl, gp, hbp, hgl, hgp, htr⟩ := handleConfirmTrace_guard inp (.ok (some tx)) h
  unfold handleConfirm
  rw [htr]
  simp only [he, if_true]
  rfl

theorem handleConfirm_ok_success (inp : ConfirmInput) (tx : String) (h : guardPasses inp = true)
    (he : tx.isEmpty = false) :
    handleConfirm inp (.ok (some tx)) =
      { inp.state with loading := false, txStatus := some .success, txId := some tx } := by
  obtain ⟨bp, gl, gp, hbp, hgl, hgp, htr⟩ := handleConfirmTrace_guard inp (.ok (some tx)) h
  unfold handleConfirm
  rw [htr]
  simp only [he, Bool.false_eq_true, if_false]
  rfl

theorem handleConfirm_fail (inp : ConfirmInput) (b : Except Unit (Option String))
    (h : guardPasses inp = false) : handleConfirm inp b = inp.state := by
  unfold handleConfirm
  rw [handleConfirmTrace_fail inp b h]
  rfl

theorem isEmpty_false_iff (s : String) : s.isEmpty = false ↔ s ≠ "" := by
  rw [Bool.eq_false_iff]
  exact not_congr (String.isEmpty_iff s)

/-- C1: After any completed invocation of the confirm/submit flow (from the
workflow state as created by the ancestor step, with `txStatus` and `txId`
unset), the workflow state satisfies: `txStatus = success` iff `txId` is set
and non-empty; when the broadcast returns a non-empty identifier `t`,
`txStatus` becomes `success` and `txId = t`; when it returns the empty
string, `txStatus` becomes `failed` and `txId` stays unset. -/
theorem confirm_txStatus_iff_txId (inp : ConfirmInput) (b : Except Unit (Option String))
    (h1 : inp.state.txStatus = none) (h2 : inp.state.txId = none) :
    ((handleConfirm inp b).txStatus = some TxStatus.success ↔
      ∃ t, (handleConfirm inp b).txId = some t ∧ t ≠ "") ∧
    (∀ t, guardPasses inp = true → b = Except.ok (some t) → t ≠ "" →
      (handleConfirm inp b).txStatus = some TxStatus.success ∧
        (handleConfirm inp b).txId = some t) ∧
    (guardPasses inp = true → b = Except.ok (some "") →
      (handleConfirm inp b).txStatus = some TxStatus.failed ∧
        (handleConfirm inp b).txId = none) := by
  by_cases hg : guardPasses inp = true
  · cases b with
    | error u =>
      rw [handleConfirm_error inp u hg]
      refine ⟨by simp [h1, h2], fun t _ hb => absurd hb (by simp), fun _ hb => absurd hb (by simp)⟩
    | ok tx =>
      cases tx with
      | none =>
        rw [handleConfirm_ok_none inp hg]
        refine ⟨by simp [h2], fun t _ hb => absurd hb (by simp), fun _ hb => absurd hb (by simp)⟩
      | some s =>
        by_cases he : s.isEmpty = true
        · have hs : s = "" := (String.isEmpty_iff s).mp he
          rw [handleConfirm_ok_empty inp s hg he]
          refine ⟨by simp [h2], ?_, ?_⟩
          · intro t _ hb ht
            rw [hs] at hb
            simp only [Except.ok.injEq, Option.some_inj] at hb
            exact absurd hb.symm ht
          · intro _ _
            exact ⟨by simp, by simp [h2]⟩
        · have he' : s.isEmpty = false := Bool.not_eq_true _ ▸ eq_false_of_ne_true he
          have hs : s ≠ "" := (isEmpty_false_iff s).mp he'
          rw [handleConfirm_ok_success inp s hg he']
          refine ⟨by simp [hs], ?_, ?_⟩
          · intro t _ hb _
            simp only [Except.ok.injEq, Option.some_inj] at hb
            exact ⟨by simp, by simp [hb]⟩
          · intro _ hb
            simp only [Except.ok.injEq, Option.some_inj] at hb
            exact absurd hb hs
  · have hg' : guardPasses inp = false := eq_false_of_ne_true hg
    rw [handleConfirm_fail inp b hg']
    exact ⟨by simp [h1, h2], fun t hgt _ _ => absurd hgt hg,
      fun hgt _ => absurd hgt hg⟩

/-- Witness for C1 at a concrete guard-passing input whose broadcast
returns `"ABC123"`. -/
theorem confirm_txStatus_iff_txId_witness :
    (handleConfirm sampleInput (Except.ok (some "ABC123"))).txStatus = some TxStatus.success ∧
      (handleConfirm sampleInput (Except.ok (some "ABC123"))).txId = some "ABC123" :=
  (confirm_txStatus_iff_txId sampleInput (Except.ok (some "ABC123")) rfl rfl).2.1
    "ABC123" (by decide) rfl (by decide)

/-- C2: For every invocation that passes the guard — successful broadcast,
empty or absent transaction id, or a thrown exception during build/submit —
loading is reset to false and the workflow advances to the status step
exactly once; so after any such invocation, `loading = false`. -/
theorem confirm_always_resets_loading_and_advances (inp : ConfirmInput)
    (b : Except Unit (Option String)) (h : guardPasses inp = true) :
    (handleConfirm inp b).loading = false ∧
      advanceTargets (handleConfirmTrace inp b) = [DefiStep.status] ∧
      ((handleConfirmTrace inp b).filter isSetLoadingFalseEvent).length = 1 := by
  obtain ⟨bp, gl, gp, hbp, hgl, hgp, htr⟩ := handleConfirmTrace_guard inp b h
  refine ⟨?_, ?_, ?_⟩
  · cases b with
    | error u => rw [handleConfirm_error inp u h]
    | ok tx =>
      cases tx with
      | none => rw [handleConfirm_ok_none inp h]
      | some s =>
        by_cases he : s.isEmpty = true
        · rw [handleConfirm_ok_empty inp s h he]
        · rw [handleConfirm_ok_success inp s h (eq_false_of_ne_true he)]
  · rw [htr]
    cases b with
    | error u => rfl
    | ok tx =>
      cases tx with
      | none => rfl
      | some s => by_cases he : s.isEmpty = true <;> simp [he, advanceTargets]
  · rw [htr]
    cases b with
    | error u => rfl
    | ok tx =>
      cases tx with
      | none => rfl
      | some s => by_cases he : s.isEmpty = true <;> simp [he, isSetLoadingFalseEvent]

/-- Witness for C2 at a concrete guard-passing input whose broadcast throws. -/
theorem confirm_always_resets_loading_and_advances_witness :
    (handleConfirm sampleInput (Except.error ())).loading = false ∧
      advanceTargets (handleConfirmTrace sampleInput (Except.error ())) = [DefiStep.status] ∧
      ((handleConfirmTrace sampleInput (Except.error ())).filter isSetLoadingFalseEvent).length
        = 1 :=
  confirm_always_resets_loading_and_advances sampleInput (Except.error ()) (by decide)

/-- C3: If the state machine is invoked while loading is true, or while the
gas limit, gas price, BIP44 params, account id, or connected wallet is
absent, the invocation is a no-op: the workflow state is unchanged, no
event is emitted, and the signing/broadcast dispatcher is never called. -/
theorem confirm_guard_noop (inp : ConfirmInput) (b : Except Unit (Option String))
    (h : inp.state.loading = true ∨ inp.gasLimit = none ∨ inp.gasPrice = none ∨
      inp.bip44Params = none ∨ inp.state.accountId = none ∨ inp.wallet = false) :
    handleConfirm inp b = inp.state ∧ handleConfirmTrace inp b = [] ∧
      broadcastRequests (handleConfirmTrace inp b) = [] := by
  have hg := guardFails_of inp h
  have ht := handleConfirmTrace_fail inp b hg
  exact ⟨handleConfirm_fail inp b hg, ht, by rw [ht]; rfl⟩

/-- Witness for C3: invoking while a submit is already loading leaves the
state untouched and calls nothing. -/
theorem confirm_guard_noop_witness :
    handleConfirm sampleLoadingInput (Except.ok (some "ABC123")) = sampleLoadingInput.state ∧
      handleConfirmTrace sampleLoadingInput (Except.ok (some "ABC123")) = [] ∧
      broadcastRequests (handleConfirmTrace sampleLoadingInput (Except.ok (some "ABC123"))) =
        [] :=
  confirm_guard_noop sampleLoadingInput (Except.ok (some "ABC123")) (Or.inl rfl)

/-- C9: For every invocation that passes the guard, `loading := true` is
dispatched strictly before the build/submit dispatch begins (they are the
first two events, in that order), and whenever the broadcast returns (so a
terminal `txStatus` is assigned), the first `loading := false` event comes
strictly after the `txStatus` assignment. -/
theorem confirm_loading_before_dispatch (inp : ConfirmInput)
    (b : Except Unit (Option String)) (h : guardPasses inp = true) :
    ∃ req rest,
      handleConfirmTrace inp b =
        Event.dispatched (WithdrawAction.setLoading true) :: Event.broadcastCall req :: rest ∧
      ∀ t, b = Except.ok t →
        ∃ i j, firstIdx isTxStatusEvent (handleConfirmTrace inp b) = some i ∧
          firstIdx isSetLoadingFalseEvent (handleConfirmTrace inp b) = some j ∧ i < j := by
  obtain ⟨bp, gl, gp, hbp, hgl, hgp, htr⟩ := handleConfirmTrace_guard inp b h
  refine ⟨_, _, htr, ?_⟩
  intro t hb
  subst hb
  rw [htr]
  cases t with
  | none => exact ⟨2, 4, rfl, rfl, by omega⟩
  | some s =>
    by_cases he : s.isEmpty = true
    · simp only [he, if_true]
      exact ⟨2, 4, rfl, rfl, by omega⟩
    · simp only [eq_false_of_ne_true he, Bool.false_eq_true, if_false]
      exact ⟨2, 4, rfl, rfl, by omega⟩

/-- Witness for C9 at a concrete guard-passing input with a successful
broadcast. -/
theorem confirm_loading_before_dispatch_witness :
    ∃ req rest,
      handleConfirmTrace sampleInput (Except.ok (some "ABC123")) =
        Event.dispatched (WithdrawAction.setLoading true) :: Event.broadcastCall req :: rest ∧
      ∀ t, (Except.ok (some "ABC123") : Except Unit (Option String)) = Except.ok t →
        ∃ i j,
          firstIdx isTxStatusEvent (handleConfirmTrace sampleInput (Except.ok (some "ABC123")))
            = some i ∧
          firstIdx isSetLoadingFalseEvent
            (handleConfirmTrace sampleInput (Except.ok (some "ABC123"))) = some j ∧ i < j :=
  confirm_loading_before_dispatch sampleInput (Except.ok (some "ABC123")) (by decide)

theorem toRat_zero : BigDec.toRat ⟨0, 0⟩ = 0 := by
  norm_num [BigDec.toRat]

theorem ratOrZeroOpt_none : ratOrZeroOpt none = 0 := toRat_zero

theorem ratOrZero_of_parse (s : String) (x : BigDec) (h : parseBigDec s = some x) :
    ratOrZero s = x.toRat := by
  unfold ratOrZero bnOrZero
  rw [h]
  rfl

theorem ratOrZero_of_parse_none (s : String) (h : parseBigDec s = none) : ratOrZero s = 0 := by
  unfold ratOrZero bnOrZero
  rw [h]
  exact toRat_zero

theorem ratOrZeroOpt_bogus : ratOrZeroOpt (some "bogus") = 0 :=
  ratOrZero_of_parse_none "bogus" (by decide)

theorem ratOrZeroOpt_zero_str : ratOrZeroOpt (some "0") = 0 := by
  have h := ratOrZero_of_parse "0" ⟨0, 0⟩ (by decide)
  rw [show ratOrZeroOpt (some "0") = ratOrZero "0" from rfl, h]
  exact toRat_zero

/-- Counterexample to C4: at a concrete guard-passing input whose
build/submit step throws, `txStatus` is not set to `failed` — the catch
block only logs, so `txStatus` stays unset. -/
theorem confirm_throw_txStatus_counterexample :
    guardPasses sampleInput = true ∧
      (handleConfirm sampleInput (Except.error ())).txStatus ≠ some TxStatus.failed ∧
      (handleConfirm sampleInput (Except.error ())).txStatus = none :=
  ⟨by decide, by decide, by decide⟩

/-- C4 (amended): For every invocation that passes the guard, if the
build-and-submit step throws, the error is logged exactly once and nothing
is re-thrown (the invocation still terminates in a state), loading is
reset and the workflow advances to the status step — but `txStatus` is
left unchanged rather than set to `failed`; `failed` is recorded only on
the empty/absent-id return path. -/
theorem confirm_throw_logs_without_txStatus (inp : ConfirmInput)
    (b : Except Unit (Option String)) (u : Unit) (h : guardPasses inp = true)
    (hb : b = Except.error u) :
    (handleConfirm inp b).txStatus = inp.state.txStatus ∧
      errorLogCount (handleConfirmTrace inp b) = 1 ∧
      (handleConfirm inp b).loading = false ∧
      advanceTargets (handleConfirmTrace inp b) = [DefiStep.status] := by
  subst hb
  obtain ⟨bp, gl, gp, hbp, hgl, hgp, htr⟩ := handleConfirmTrace_guard inp (.error u) h
  refine ⟨by rw [handleConfirm_error inp u h], ?_, by rw [handleConfirm_error inp u h], ?_⟩
  · rw [htr]; rfl
  · rw [htr]; rfl

/-- Witness for the amended C4 at a concrete guard-passing input. -/
theorem confirm_throw_logs_without_txStatus_witness :
    (handleConfirm sampleInput (Except.error ())).txStatus = sampleInput.state.txStatus ∧
      errorLogCount (handleConfirmTrace sampleInput (Except.error ())) = 1 ∧
      (handleConfirm sampleInput (Except.error ())).loading = false ∧
      advanceTargets (handleConfirmTrace sampleInput (Except.error ())) = [DefiStep.status] :=
  confirm_throw_logs_without_txStatus sampleInput (Except.error ()) () (by decide) rfl

/-- C5: The built withdrawal request's fee field denotes exactly
`gasPrice * 10 ^ precision` and its value field exactly
`cryptoAmount * 10 ^ precision` (the withdrawn asset's precision, for
both); concretely, with precision 6, amount `"10"` and gas price `"0.5"`,
the fee field is `"500000"` and the value field is `"10000000"`. -/
theorem buildRequest_fee_value_scaling :
    (∀ (asset : Asset) (bp : BIP44Params) (validator gasLimit gasPrice cryptoAmount : String),
      (parseBigDec (buildWithdrawRequest asset bp validator gasLimit gasPrice
          cryptoAmount).fee).map BigDec.toRat =
        some (ratOrZero gasPrice * 10 ^ asset.precision) ∧
      (parseBigDec (buildWithdrawRequest asset bp validator gasLimit gasPrice
          cryptoAmount).value).map BigDec.toRat =
        some (ratOrZero cryptoAmount * 10 ^ asset.precision) ∧
      (buildWithdrawRequest asset bp validator gasLimit gasPrice cryptoAmount).gas
        = gasLimit) ∧
    (buildWithdrawRequest sampleAsset ⟨44, 118, 0⟩ "osmovaloper1xyz" "200000" "0.5" "10").fee
      = "500000" ∧
    (buildWithdrawRequest sampleAsset ⟨44, 118, 0⟩ "osmovaloper1xyz" "200000" "0.5" "10").value
      = "10000000" :=
  ⟨fun asset bp v gl gp amt =>
    ⟨toBaseUnits_parse gp asset.precision, toBaseUnits_parse amt asset.precision, rfl⟩,
    by decide, by decide⟩

/-- C6: `hasEnoughBalanceForGas` holds exactly when
`feeAssetBalance - estimatedGasBaseUnits / 10 ^ feeAssetPrecision >= 0`,
with absent or malformed inputs falling back to 0 and the computation
total; concretely, balance 1.0 against 2,000,000 base units at precision 6
yields `false`. -/
theorem hasEnoughBalanceForGas_spec :
    (∀ (feeAssetBalance estimatedGasCrypto : Option String) (feeAssetPrecision : Nat),
      hasEnoughBalanceForGas feeAssetBalance estimatedGasCrypto feeAssetPrecision = true ↔
        0 ≤ ratOrZeroOpt feeAssetBalance -
          ratOrZeroOpt estimatedGasCrypto / 10 ^ feeAssetPrecision) ∧
    ratOrZeroOpt none = 0 ∧ ratOrZeroOpt (some "bogus") = 0 ∧
    hasEnoughBalanceForGas (some "1.0") (some "2000000") 6 = false :=
  ⟨hasEnoughBalanceForGas_iff, ratOrZeroOpt_none, ratOrZeroOpt_bogus, by decide⟩

/-- Counterexample to C7: the zero-gas clause fails for a negative
balance — with balance `"-1"` and estimated gas cost 0, the check is
`false`, not `true`. -/
theorem hasEnoughBalanceForGas_zero_gas_counterexample :
    ratOrZeroOpt (some "0") = 0 ∧
      hasEnoughBalanceForGas (some "-1") (some "0") 6 = false :=
  ⟨ratOrZeroOpt_zero_str, by decide⟩

/-- C7 (amended): `hasEnoughBalanceForGas` is monotonically non-increasing
in the estimated gas cost, non-decreasing in the fee-asset balance, and is
true at zero gas cost for every balance whose parsed value is non-negative
(which includes absent and malformed balances, treated as 0) — but not for
negative balances. -/
theorem hasEnoughBalanceForGas_monotone :
    (∀ (bal g1 g2 : Option String) (p : Nat),
      ratOrZeroOpt g1 ≤ ratOrZeroOpt g2 →
      hasEnoughBalanceForGas bal g2 p = true → hasEnoughBalanceForGas bal g1 p = true) ∧
    (∀ (b1 b2 g : Option String) (p : Nat),
      ratOrZeroOpt b1 ≤ ratOrZeroOpt b2 →
      hasEnoughBalanceForGas b1 g p = true → hasEnoughBalanceForGas b2 g p = true) ∧
    (∀ (bal : Option String) (p : Nat), 0 ≤ ratOrZeroOpt bal →
      hasEnoughBalanceForGas bal (some "0") p = true) := by
  refine ⟨?_, ?_, ?_⟩
  · intro bal g1 g2 p hg h
    rw [hasEnoughBalanceForGas_iff] at h ⊢
    have hd : ratOrZeroOpt g1 / 10 ^ p ≤ ratOrZeroOpt g2 / 10 ^ p := by
      gcongr
    linarith
  · intro b1 b2 g p hb h
    rw [hasEnoughBalanceForGas_iff] at h ⊢
    linarith
  · intro bal p h
    rw [hasEnoughBalanceForGas_iff]
    rw [ratOrZeroOpt_zero_str, zero_div, sub_zero]
    exact h

/-- Witness for the amended C7: monotonicity in the gas cost at concrete
inputs. -/
theorem hasEnoughBalanceForGas_monotone_witness :
    ratOrZeroOpt (some "1000000") ≤ ratOrZeroOpt (some "2000000") ∧
      hasEnoughBalanceForGas (some "3") (some "2000000") 6 = true ∧
      hasEnoughBalanceForGas (some "3") (some "1000000") 6 = true := by
  have h1 : ratOrZeroOpt (some "1000000") ≤ ratOrZeroOpt (some "2000000") := by
    rw [show ratOrZeroOpt (some "1000000") = ratOrZero "1000000" from rfl,
      show ratOrZeroOpt (some "2000000") = ratOrZero "2000000" from rfl,
      ratOrZero_of_parse "1000000" ⟨1000000, 0⟩ (by decide),
      ratOrZero_of_parse "2000000" ⟨2000000, 0⟩ (by decide)]
    norm_num [BigDec.toRat]
  exact ⟨h1, by decide,
    hasEnoughBalanceForGas_monotone.1 (some "3") (some "1000000") (some "2000000") 6 h1
      (by decide)⟩

/-- Counterexample to C8: the conversion does not round — for
`A = "0.0000005"` and `P = 6` the built value denotes `1/2`, while
`round(A * 10 ^ P) = 1`. -/
theorem toBaseUnits_round_counterexample :
    ratOrZero (toBaseUnits "0.0000005" 6) = 1 / 2 ∧
      (round (ratOrZero "0.0000005" * 10 ^ 6) : ℚ) = 1 ∧
      ratOrZero (toBaseUnits "0.0000005" 6) ≠
        (round (ratOrZero "0.0000005" * 10 ^ 6) : ℚ) := by
  have hin : ratOrZero "0.0000005" = 5 / 10 ^ 7 := by
    rw [ratOrZero_of_parse "0.0000005" ⟨5, 7⟩ (by decide)]
    norm_num [BigDec.toRat]
  have hout : ratOrZero (toBaseUnits "0.0000005" 6) = 1 / 2 := by
    have h : toBaseUnits "0.0000005" 6 = "0.5" := by decide
    rw [h, ratOrZero_of_parse "0.5" ⟨5, 1⟩ (by decide)]
    norm_num [BigDec.toRat]
  have hround : (round (ratOrZero "0.0000005" * 10 ^ 6) : ℚ) = 1 := by
    rw [hin]
    norm_num [round_eq]
  refine ⟨hout, hround, ?_⟩
  rw [hout, hround]
  norm_num

/-- C8 (amended): The conversion to base units used when building the
request equals `A * 10 ^ P` exactly — arbitrary-precision decimal
arithmetic with no rounding and no floating-point error, for every
precision `P` (in particular up to and beyond 18). -/
theorem toBaseUnits_exact_scaling :
    ∀ (amount : String) (precision : Nat),
      (parseBigDec (toBaseUnits amount precision)).map BigDec.toRat =
        some (ratOrZero amount * 10 ^ precision) ∧
      ratOrZero (toBaseUnits amount precision) = ratOrZero amount * 10 ^ precision :=
  fun a p => ⟨toBaseUnits_parse a p, ratOrZero_toBaseUnits a p⟩

/-- C10: `underlyingAssetId`, `assetId` and `feeAssetId` are constructed
from the identical query triple, so they coincide, any asset lookup
resolves them to the same descriptor, and the fee asset's precision can
never differ from the withdrawn asset's precision. -/
theorem assetIds_coincide :
    ∀ (q : DefiQuery) (selectAssetById : String → Option Asset),
      feeAssetId q = confirmAssetId q ∧ underlyingAssetId q = confirmAssetId q ∧
      selectAssetById (feeAssetId q) = selectAssetById (confirmAssetId q) ∧
      (selectAssetById (feeAssetId q)).map Asset.precision =
        (selectAssetById (confirmAssetId q)).map Asset.precision :=
  fun _ _ => ⟨rfl, rfl, rfl, rfl⟩
